import Mathlib

/-! # originalImage: admission queue, dispatcher and per-job task

A shallow embedding of `main.go` and `opt/opt.go`.

* Go strings are Lean strings; `(value, error)` results are `Except Error value`.
* Every call of an external collaborator (the HTTP client, the minio client, the logger,
  a stream's `Close`) is recorded as an `Event`; a function that performs such calls returns a
  `Run`: the events it produced, in order, and how it ended (a normal return or a Go panic).
* `defer` and `recover` are the two combinators `Run.withDefer` and `Run.deferRecover`.
* The buffered channel `workers` is a capacity and a FIFO buffer; one iteration of the `select`
  loop of `consume` is `consumeStep`, which is told which ready case the runtime picked.
-/

namespace OriginalImage

/-- Go `error` values, identified by their message. -/
abbrev Error := String

/-! ## opt/opt.go -/

namespace opt

/-- The struct `Config`; the mutex `mu` guards `Cookie` and carries no data. -/
structure Config where
  Endpoint : String
  AccessKey : String
  SecretAccessKey : String
  Cookie : String
  Addr : String
  BucketName : String
  deriving DecidableEq, Repr

/-- Method `(c *Config) GetCookie`: the returned string and the configuration afterwards. -/
def Config.GetCookie (c : Config) : String × Config :=
  (c.Cookie, c)

/-- Method `(c *Config) UpdateCookie`: assigns the field, then returns it. -/
def Config.UpdateCookie (c : Config) (cookie : String) : String × Config :=
  let c1 := { c with Cookie := cookie }
  (c1.Cookie, c1)

end opt

/-! ## Effects: events, panics, defer and recover -/

/-- An `io.ReadCloser` handle, identified by a number. -/
structure ReadCloser where
  id : Nat
  deriving DecidableEq, Repr

/-- The part of `http.Request` the program sets. -/
structure Request where
  Method : String
  URL : String
  Header : List (String × String)
  deriving DecidableEq, Repr

/-- The part of `http.Response` the program reads, and the status it never reads. -/
structure Response where
  StatusCode : Nat
  Body : ReadCloser
  ContentLength : Int
  deriving DecidableEq, Repr

/-- The struct `minio.PutObjectOptions`, reduced to the field the program sets. -/
structure PutObjectOptions where
  ContentType : String
  deriving DecidableEq, Repr

/-- The struct `minio.UploadInfo`. -/
structure UploadInfo where
  Bucket : String
  Key : String
  Size : Int
  deriving DecidableEq, Repr

/-- Calls that leave the program. -/
inductive Event where
  /-- A `log.Printf` line. -/
  | log (msg : String)
  /-- A call of `client.Do`. -/
  | httpDo (req : Request)
  /-- Entry into `S3Client.PutObject`. -/
  | s3Put (objectName : String) (reader : ReadCloser) (objectSize : Int) (opts : PutObjectOptions)
  /-- A call of `minio.Client.BucketExists`. -/
  | bucketExists (bucketName : String)
  /-- A call of `minio.Client.PutObject`, the write itself. -/
  | putObject (bucketName objectName : String) (reader : ReadCloser) (objectSize : Int)
      (opts : PutObjectOptions)
  /-- A call of `Close` on a stream. -/
  | close (reader : ReadCloser)
  /-- A call of `rand.Read` on a buffer of `n` bytes. -/
  | randRead (n : Nat)
  deriving DecidableEq, Repr

/-- The value of a Go panic; `none` is the nil interface value. -/
abbrev PanicValue := Option String

/-- How a call ends: it returns a value, or it panics. -/
inductive Outcome (α : Type) where
  | ret (a : α)
  | panic (v : PanicValue)
  deriving DecidableEq, Repr

/-- An execution: the events produced, oldest first, and the way it ended. -/
structure Run (α : Type) where
  trace : List Event
  out : Outcome α
  deriving DecidableEq, Repr

/-- A computation without events. -/
def Run.pure {α : Type} (a : α) : Run α :=
  { trace := [], out := .ret a }

/-- Sequencing: a panic in the first part skips the second. -/
def Run.bind {α β : Type} (m : Run α) (f : α → Run β) : Run β :=
  match m.out with
  | .ret a => { trace := m.trace ++ (f a).trace, out := (f a).out }
  | .panic v => { trace := m.trace, out := .panic v }

/-- One external call: the event, then the outcome the collaborator gives. -/
def call {α : Type} (ev : Event) (o : Outcome α) : Run α :=
  { trace := [ev], out := o }

/-- The statement `log.Printf`, with the formatted message. -/
def logPrintf (msg : String) : Run Unit :=
  call (.log msg) (.ret ())

/-- The statement `defer d` placed before `body` (a deferred call that does not recover):
`d` runs when `body` returns and also when it panics; a panic of `body` continues after `d`,
a panic of `d` replaces it. -/
def Run.withDefer {α : Type} (body : Run α) (d : Run Unit) : Run α :=
  match d.out with
  | .ret _ => { trace := body.trace ++ d.trace, out := body.out }
  | .panic v => { trace := body.trace ++ d.trace, out := .panic v }

/-- The statement `defer func() { ... recover() ... }()` placed before `body`: the deferred
function is given what `recover()` returns, nil (`none`) when `body` did not panic and the
panic value otherwise; the panic stops there and the function ends the way the deferred
function ends. -/
def Run.deferRecover (body : Run Unit) (handler : PanicValue → Run Unit) : Run Unit :=
  let recovered : PanicValue :=
    match body.out with
    | .ret _ => none
    | .panic v => v
  { trace := body.trace ++ (handler recovered).trace, out := (handler recovered).out }

/-- Method `Close` of a stream; its error result is dropped by the caller. -/
def ReadCloser.Close (r : ReadCloser) : Run Unit :=
  call (.close r) (.ret ())

/-! ## Library functions used by main.go -/

/-- Worker of `Split` for a non-empty separator: `skip` counts the characters of a separator
just matched that are still to be dropped, `cur` holds the current piece reversed. -/
def splitGo (sep : List Char) : Nat → List Char → List Char → List (List Char)
  | _, cur, [] => [cur.reverse]
  | skip + 1, cur, _ :: cs => splitGo sep skip cur cs
  | 0, cur, c :: cs =>
    if sep.isPrefixOf (c :: cs) then cur.reverse :: splitGo sep (sep.length - 1) [] cs
    else splitGo sep 0 (c :: cur) cs

/-- Go `strings.Split`: the pieces of `s` between the occurrences of `sep`; with an empty
separator the string is cut after every character. -/
def Split (s sep : String) : List String :=
  if sep.toList = [] then s.toList.map fun c => String.mk [c]
  else (splitGo sep.toList 0 [] s.toList).map String.mk

/-- The table `hextable` of `encoding/hex`. -/
def hextable : List Char := "0123456789abcdef".toList

/-- Go `hex.EncodeToString`: two digits per byte, high nibble first. -/
def EncodeToString (src : List Nat) : String :=
  String.mk (src.flatMap fun b =>
    [hextable.getD (b % 256 / 16) '0', hextable.getD (b % 256 % 16) '0'])

/-- Worker of `CanonicalMIMEHeaderKey`: `upper` tells whether the next letter starts a word. -/
def canonicalGo : Bool → List Char → List Char
  | _, [] => []
  | upper, c :: cs =>
    (if upper then c.toUpper else c.toLower) :: canonicalGo (c == '-') cs

/-- Go `textproto.CanonicalMIMEHeaderKey` on a key made of letters, digits and "-", as all
keys of this program are: the first letter and every letter after "-" in upper case, the
others in lower case. -/
def CanonicalMIMEHeaderKey (key : String) : String :=
  String.mk (canonicalGo true key.toList)

/-- Method `Header.Set`: the canonical key gets the value, replacing any earlier one. The
header is a map; the list keeps its keys in the order they were first set. -/
def headerSet (h : List (String × String)) (key value : String) : List (String × String) :=
  if h.any (fun kv => kv.1 == CanonicalMIMEHeaderKey key) then
    h.map fun kv => if kv.1 == CanonicalMIMEHeaderKey key then (kv.1, value) else kv
  else h ++ [(CanonicalMIMEHeaderKey key, value)]

/-- The outside world of one task: URL validation of `http.NewRequest`, the HTTP client and
the random source. -/
structure Net where
  /-- What parsing the URL in `http.NewRequest` reports: `none` when it is accepted. -/
  parseErr : String → Option Error
  /-- Method `client.Do`. -/
  Do : Request → Outcome (Except Error Response)
  /-- Function `rand.Read` on a buffer of the given length. -/
  randRead : Nat → Outcome (Except Error (List Nat))

/-- Go `http.NewRequest` with a nil body. -/
def NewRequest (net : Net) (method url : String) : Except Error Request :=
  match net.parseErr url with
  | some e => .error e
  | none => .ok { Method := method, URL := url, Header := [] }

/-- The behaviour of the embedded `*minio.Client`. -/
structure MinioClient where
  BucketExists : String → Outcome (Except Error Bool)
  PutObject : String → String → ReadCloser → Int → PutObjectOptions →
    Outcome (Except Error UploadInfo)

/-! ## main.go -/

/-- The constant `defaultWorkersNum`. -/
def defaultWorkersNum : Nat := 1024

/-- The struct `S3Client`. The `timeout` bounds the contexts handed to the minio client; what
a deadline does to a call is part of the outcome that client gives. -/
structure S3Client where
  timeout : Nat
  bucket : String
  Client : MinioClient

/-- Function `MakeRequest`. -/
def MakeRequest (net : Net) (url : String) (headers : List (String × String)) :
    Run (Except Error Response) :=
  match NewRequest net "GET" url with
  | .error err => Run.pure (.error err)
  | .ok req =>
    let req1 := { req with
      Header := headers.foldl (fun h kv => headerSet h kv.1 kv.2) req.Header }
    call (.httpDo req1) (net.Do req1)

/-- The header map built in `fetchOriginalImage`. -/
def imageHeaders (url cookie : String) : List (String × String) :=
  [("accept", "application/json, text/plain, */*"),
   ("accept-language", "zh-CN,zh;q=0.9"),
   ("cookie", cookie),
   ("referer", url),
   ("user-agent", "Mozilla/5.0 (Windows NT 10.0; Win64; x64) AppleWebKit/537.36 (KHTML, like Gecko) Chrome/113.0.0.0 Safari/537.36")]

/-- Function `fetchOriginalImage`: the body and the declared length, or the wrapped error. -/
def fetchOriginalImage (net : Net) (url cookie : String) :
    Run (Except Error (ReadCloser × Int)) :=
  Run.bind (MakeRequest net url (imageHeaders url cookie)) fun r =>
    match r with
    | .error err => Run.pure (.error ("make request to " ++ url ++ " err: " ++ err))
    | .ok resp => Run.pure (.ok (resp.Body, resp.ContentLength))

/-- Method `(s *S3Client) BucketExists`. -/
def S3Client.BucketExists (s : S3Client) (bucketName : String) : Run (Except Error Bool) :=
  call (.bucketExists bucketName) (s.Client.BucketExists bucketName)

/-- Method `(s *S3Client) PutObject`. -/
def S3Client.PutObject (s : S3Client) (objectName : String) (reader : ReadCloser)
    (objectSize : Int) (opts : PutObjectOptions) : Run (Except Error UploadInfo) :=
  Run.bind (call (.s3Put objectName reader objectSize opts) (.ret ())) fun _ =>
  Run.bind (s.BucketExists s.bucket) fun r =>
    match r with
    | .error err => Run.pure (.error err)
    | .ok isExists =>
      if !isExists then Run.pure (.error ("bucket " ++ s.bucket ++ " not exists"))
      else call (.putObject s.bucket objectName reader objectSize opts)
        (s.Client.PutObject s.bucket objectName reader objectSize opts)

/-- Function `Go`: the execution of the goroutine it starts, for a task body `fn` given by its
own execution. The deferred function logs what `recover()` returns when that is not nil. -/
def Go (fn : Run Unit) : Run Unit :=
  Run.deferRecover fn fun err =>
    match err with
    | some v => logPrintf ("panic: " ++ v)
    | none => Run.pure ()

/-- Function `generateRandomFileName`: the name and the error, both returned. -/
def generateRandomFileName (net : Net) : Run (String × Option Error) :=
  Run.bind (call (.randRead 16) (net.randRead 16)) fun r =>
    match r with
    | .error err => Run.pure ("", some err)
    | .ok randomBytes => Run.pure (EncodeToString randomBytes, none)

/-- What a task of `consume` has at hand: the world, the settings and the store client. -/
structure Env where
  net : Net
  Cfg : opt.Config
  s3 : S3Client

/-- The object name computed in the task body from the job. -/
def objectNameOf (net : Net) (url : String) : Run String :=
  let parts := Split url "/"
  if parts.length > 0 then Run.pure (parts.getD (parts.length - 1) "")
  else Run.bind (generateRandomFileName net) fun r => Run.pure (r.1 ++ ".jpg")

/-- The function literal handed to `Go` in `consume`, for the job `url`. -/
def consumeTask (e : Env) (url : String) : Run Unit :=
  Run.bind (fetchOriginalImage e.net url e.Cfg.GetCookie.1) fun r =>
    match r with
    | .error err => logPrintf ("fetch original image " ++ url ++ " error: " ++ err)
    | .ok (reader, size) =>
      Run.withDefer
        (Run.bind (objectNameOf e.net url) fun objectName =>
          Run.bind (e.s3.PutObject objectName reader size { ContentType := "image/jpeg" })
            fun res =>
              match res with
              | .error err => logPrintf ("put object " ++ objectName ++ " error: " ++ err)
              | .ok _ => Run.pure ())
        reader.Close

/-! ### The admission queue and the handler's enqueue loop -/

/-- A buffered `chan string`: the capacity given to `make` and the buffered elements, oldest
first. -/
structure Chan where
  cap : Nat
  buf : List String
  deriving DecidableEq, Repr

/-- The statement `select { case ch <- v: default: }` while no receiver is waiting: the send
proceeds exactly when the buffer has room; the flag tells whether it did. -/
def Chan.trySend (ch : Chan) (v : String) : Bool × Chan :=
  if ch.buf.length < ch.cap then (true, { ch with buf := ch.buf ++ [v] }) else (false, ch)

/-- The URL built from a picture id in the `/api/images` handler. -/
def jobURL (id : String) : String :=
  "https://lz.sinaimg.cn/oslarge/" ++ id ++ ".jpg"

/-- The `select` of the handler's loop applied to the jobs in turn, with nothing dequeued in
between: the channel afterwards and the log lines written by the `default` case. -/
def enqueueJobs (workers : Chan) : List String → Chan × List Event
  | [] => (workers, [])
  | url :: rest =>
    match workers.trySend url with
    | (true, w) => enqueueJobs w rest
    | (false, w) =>
      ((enqueueJobs w rest).1, .log ("enqueue timeout, url " ++ url) :: (enqueueJobs w rest).2)

/-- The loop `for _, id := range res.Pic_ids` of the `/api/images` handler. -/
def enqueuePicIds (workers : Chan) (pic_ids : List String) : Chan × List Event :=
  enqueueJobs workers (pic_ids.map jobURL)

/-- The channel `workers` as `main` makes it. -/
def newWorkers : Chan :=
  { cap := defaultWorkersNum, buf := [] }

/-! ### The dispatcher loop -/

/-- The case a `select` takes when both of its cases can proceed; the runtime picks one of the
ready cases at random. -/
inductive Ready where
  | stop
  | job
  deriving DecidableEq, Repr

/-- The state of the goroutine running `consume`, and of what it started. -/
structure Dispatcher where
  /-- Whether `close(closed)` has happened. -/
  stopClosed : Bool
  /-- The channel `workers`. -/
  workers : Chan
  /-- The jobs handed to `Go` so far with the execution of their goroutine, oldest first. -/
  spawned : List (String × Run Unit)
  /-- Whether `consume` has returned. -/
  returned : Bool
  deriving DecidableEq

/-- The branch `case url := <-workers` of `consume`: dequeue and start the task through `Go`. -/
def dispatch (e : Env) (d : Dispatcher) (url : String) (rest : List String) : Dispatcher :=
  { d with
    workers := { d.workers with buf := rest }
    spawned := d.spawned ++ [(url, Go (consumeTask e url))] }

/-- One iteration of the `for { select { ... } }` loop of `consume`. With neither case ready
the loop blocks; with one case ready that case runs; with both ready `pick` decides. -/
def consumeStep (e : Env) (pick : Ready) (d : Dispatcher) : Dispatcher :=
  if d.returned then d
  else
    match d.workers.buf with
    | [] => if d.stopClosed then { d with returned := true } else d
    | url :: rest =>
      if d.stopClosed then
        match pick with
        | .stop => { d with returned := true }
        | .job => dispatch e d url rest
      else dispatch e d url rest

/-- Function `consume`, run for as many iterations as there are picks. -/
def consume (e : Env) (picks : List Ready) (d : Dispatcher) : Dispatcher :=
  picks.foldl (fun st p => consumeStep e p st) d

/-- The part of the dispatcher state that does not mention the executions of the tasks. -/
def Dispatcher.control (d : Dispatcher) : Bool × Chan × List String × Bool :=
  (d.stopClosed, d.workers, d.spawned.map Prod.fst, d.returned)

/-! ### Reading a trace -/

/-- The calls of `S3Client.PutObject` in a trace. -/
def s3Puts : List Event → List (String × ReadCloser × Int × String)
  | [] => []
  | .s3Put name r n o :: t => (name, r, n, o.ContentType) :: s3Puts t
  | _ :: t => s3Puts t

/-- The writes (`minio.Client.PutObject`) in a trace. -/
def writes : List Event → List (String × String × ReadCloser × Int × PutObjectOptions)
  | [] => []
  | .putObject b name r n o :: t => (b, name, r, n, o) :: writes t
  | _ :: t => writes t

/-- The streams closed in a trace. -/
def closes : List Event → List ReadCloser
  | [] => []
  | .close r :: t => r :: closes t
  | _ :: t => closes t

/-- Whether an event is a call of the object store client or of the minio client under it. -/
def Event.isStore : Event → Bool
  | .s3Put .. => true
  | .bucketExists .. => true
  | .putObject .. => true
  | _ => false

/-! ### Concrete collaborators -/

/-- A client whose request completes with the given status, body number 1 and 9 bytes. -/
def netStatus (status : Nat) : Net :=
  { parseErr := fun _ => none
    Do := fun _ => .ret (.ok { StatusCode := status, Body := ⟨1⟩, ContentLength := 9 })
    randRead := fun n => .ret (.ok (List.replicate n 171)) }

/-- A client whose request fails. -/
def netDown : Net :=
  { parseErr := fun _ => none
    Do := fun _ => .ret (.error "connection refused")
    randRead := fun n => .ret (.ok (List.replicate n 171)) }

/-- A store whose bucket check gives `check` and whose write gives `put`. -/
def minioOf (check : Outcome (Except Error Bool)) (put : Outcome (Except Error UploadInfo)) :
    MinioClient :=
  { BucketExists := fun _ => check
    PutObject := fun _ _ _ _ _ => put }

/-- A store with the bucket present and a write that succeeds. -/
def minioOK : MinioClient :=
  minioOf (.ret (.ok true)) (.ret (.ok { Bucket := "images", Key := "k", Size := 9 }))

/-- A store whose write panics. -/
def minioPanic : MinioClient :=
  minioOf (.ret (.ok true)) (.panic (some "nil pointer dereference"))

/-- A settings record. -/
def cfg0 : opt.Config :=
  { Endpoint := "127.0.0.1:9000", AccessKey := "ak", SecretAccessKey := "sk",
    Cookie := "SUB=1", Addr := ":8080", BucketName := "images" }

/-- The dispatcher at the instant of the shutdown signal with the job "a" still queued. -/
def signalled : Dispatcher :=
  { stopClosed := true, workers := { cap := defaultWorkersNum, buf := ["a"] },
    spawned := [], returned := false }

/-- The job of the end-to-end scenario. -/
def jobURL123 : String := "http://host/path/123.jpg"

/-- An environment from a client and a store. -/
def envOf (net : Net) (m : MinioClient) : Env :=
  { net := net, Cfg := cfg0, s3 := { timeout := 20, bucket := "images", Client := m } }

/-! ## Lemmas on traces -/

theorem s3Puts_append (a b : List Event) : s3Puts (a ++ b) = s3Puts a ++ s3Puts b := by
  induction a with
  | nil => rfl
  | cons ev t ih => cases ev <;> simp [s3Puts, ih]

theorem closes_append (a b : List Event) : closes (a ++ b) = closes a ++ closes b := by
  induction a with
  | nil => rfl
  | cons ev t ih => cases ev <;> simp [closes, ih]

/-- The only events of `MakeRequest` are calls of `client.Do`. -/
theorem MakeRequest_trace (net : Net) (url : String) (headers : List (String × String)) :
    ∀ ev ∈ (MakeRequest net url headers).trace, ∃ req, ev = .httpDo req := by
  intro ev hev
  unfold MakeRequest at hev
  cases hp : NewRequest net "GET" url with
  | error err => simp [hp, Run.pure] at hev
  | ok req =>
    simp only [hp, call, List.mem_singleton] at hev
    exact ⟨_, hev⟩

/-- The events of `fetchOriginalImage` are those of its `MakeRequest`. -/
theorem fetchOriginalImage_trace (net : Net) (url cookie : String) :
    (fetchOriginalImage net url cookie).trace
      = (MakeRequest net url (imageHeaders url cookie)).trace := by
  unfold fetchOriginalImage Run.bind
  cases ho : (MakeRequest net url (imageHeaders url cookie)).out with
  | panic v => simp
  | ret r => cases r <;> simp [Run.pure]

theorem fetchOriginalImage_events (net : Net) (url cookie : String) :
    ∀ ev ∈ (fetchOriginalImage net url cookie).trace, ∃ req, ev = .httpDo req := by
  rw [fetchOriginalImage_trace]
  exact MakeRequest_trace net url _

theorem s3Puts_of_httpDo (t : List Event) (h : ∀ ev ∈ t, ∃ req, ev = Event.httpDo req) :
    s3Puts t = [] := by
  induction t with
  | nil => rfl
  | cons ev t ih =>
    obtain ⟨req, rfl⟩ := h ev (List.mem_cons_self _ _)
    simpa [s3Puts] using ih fun x hx => h x (List.mem_cons_of_mem _ hx)

theorem closes_of_httpDo (t : List Event) (h : ∀ ev ∈ t, ∃ req, ev = Event.httpDo req) :
    closes t = [] := by
  induction t with
  | nil => rfl
  | cons ev t ih =>
    obtain ⟨req, rfl⟩ := h ev (List.mem_cons_self _ _)
    simpa [closes] using ih fun x hx => h x (List.mem_cons_of_mem _ hx)

/-- Every call of `S3Client.PutObject` is recorded once, with its arguments. -/
theorem PutObject_s3Puts (s : S3Client) (name : String) (r : ReadCloser) (n : Int)
    (o : PutObjectOptions) :
    s3Puts (s.PutObject name r n o).trace = [(name, r, n, o.ContentType)] := by
  unfold S3Client.PutObject S3Client.BucketExists Run.bind call
  cases hb : s.Client.BucketExists s.bucket with
  | panic v => simp [s3Puts]
  | ret b =>
    cases b with
    | error err => simp [s3Puts, Run.pure]
    | ok ex => cases ex <;> simp [s3Puts, Run.pure]

/-- Method `S3Client.PutObject` closes nothing. -/
theorem PutObject_closes (s : S3Client) (name : String) (r : ReadCloser) (n : Int)
    (o : PutObjectOptions) :
    closes (s.PutObject name r n o).trace = [] := by
  unfold S3Client.PutObject S3Client.BucketExists Run.bind call
  cases hb : s.Client.BucketExists s.bucket with
  | panic v => simp [closes]
  | ret b =>
    cases b with
    | error err => simp [closes, Run.pure]
    | ok ex => cases ex <;> simp [closes, Run.pure]

/-- The wrapper `Go` always ends with a normal return. -/
theorem Go_out (fn : Run Unit) : (Go fn).out = .ret () := by
  unfold Go Run.deferRecover
  cases fn.out with
  | ret a => rfl
  | panic v => cases v <;> rfl

/-- The trace of `Go fn` is the trace of `fn`, followed by one log line when `fn` panicked with
a value other than nil. -/
theorem Go_trace (fn : Run Unit) :
    (Go fn).trace = fn.trace ++
      (match fn.out with
       | .panic (some v) => [Event.log ("panic: " ++ v)]
       | _ => []) := by
  unfold Go Run.deferRecover
  cases fn.out with
  | ret a => rfl
  | panic v => cases v <;> rfl

theorem Go_closes (fn : Run Unit) : closes (Go fn).trace = closes fn.trace := by
  rw [Go_trace, closes_append]
  cases fn.out with
  | ret a => simp [closes]
  | panic v => cases v <;> simp [closes]

theorem Go_s3Puts (fn : Run Unit) : s3Puts (Go fn).trace = s3Puts fn.trace := by
  rw [Go_trace, s3Puts_append]
  cases fn.out with
  | ret a => simp [s3Puts]
  | panic v => cases v <;> simp [s3Puts]

/-! ## Lemmas on `Split` -/

theorem splitGo_ne_nil (sep : List Char) (s : List Char) :
    ∀ (k : Nat) (cur : List Char), splitGo sep k cur s ≠ [] := by
  induction s with
  | nil => intro k cur; cases k <;> simp [splitGo]
  | cons c cs ih =>
    intro k cur
    cases k with
    | zero =>
      unfold splitGo
      split
      · simp
      · exact ih 0 _
    | succ k => unfold splitGo; exact ih k cur

/-- A string without the separator is a single piece. -/
theorem splitGo_no_slash (s : List Char) :
    ∀ cur : List Char, '/' ∉ s → splitGo ['/'] 0 cur s = [cur.reverse ++ s] := by
  induction s with
  | nil => intro cur _; simp [splitGo]
  | cons c cs ih =>
    intro cur h
    have hc : ¬ ('/' = c) := fun e => h (e ▸ List.mem_cons_self _ _)
    have hcs : '/' ∉ cs := fun e => h (List.mem_cons_of_mem _ e)
    unfold splitGo
    simp [List.isPrefixOf, hc, ih _ hcs]

/-- The last piece is what follows the last separator. -/
theorem splitGo_getLast (name : List Char) (hn : '/' ∉ name) (pre : List Char) :
    ∀ cur : List Char, (splitGo ['/'] 0 cur (pre ++ '/' :: name)).getLast? = some name := by
  induction pre with
  | nil =>
    intro cur
    simp [splitGo, List.isPrefixOf, splitGo_no_slash name [] hn]
  | cons c p ih =>
    intro cur
    by_cases hc : '/' = c
    · subst hc
      simp only [List.cons_append, splitGo, List.isPrefixOf, beq_self_eq_true, Bool.and_true,
        if_true, List.length_singleton, Nat.sub_self]
      rw [List.getLast?_cons]
      simp [ih []]
    · simp only [List.cons_append, splitGo, List.isPrefixOf, beq_iff_eq, hc, Bool.false_and,
        Bool.and_true]
      simpa using ih (c :: cur)

theorem exists_last_slash (s : List Char) (h : '/' ∈ s) :
    ∃ pre name, s = pre ++ '/' :: name ∧ '/' ∉ name := by
  induction s with
  | nil => simp at h
  | cons c cs ih =>
    by_cases hcs : '/' ∈ cs
    · obtain ⟨pre, name, he, hn⟩ := ih hcs
      exact ⟨c :: pre, name, by simp [he], hn⟩
    · have hc : '/' = c := by
        rcases List.mem_cons.1 h with e | e
        · exact e
        · exact absurd e hcs
      exact ⟨[], cs, by simp [← hc], hcs⟩

theorem getD_last (l : List String) (d : String) :
    l.getD (l.length - 1) d = l.getLast?.getD d := by
  rw [List.getLast?_eq_getElem?, List.getD_eq_getElem?_getD]

/-- The `else` branch of the name derivation is never taken: the object name is always the
last piece of the job, computed without any call. -/
theorem objectNameOf_eq (net : Net) (url : String) :
    objectNameOf net url
      = Run.pure (((splitGo ['/'] 0 [] url.toList).map String.mk).getLast?.getD "") := by
  have hs : Split url "/" = (splitGo ['/'] 0 [] url.toList).map String.mk := by
    simp [Split]
  have hl : (Split url "/").length > 0 := by
    rw [hs, List.length_map]
    exact List.length_pos.2 (splitGo_ne_nil _ _ _ _)
  unfold objectNameOf
  simp only [hl, if_true, getD_last]
  rw [hs]

theorem objectNameOf_slash (net : Net) (url : String) (pre name : List Char)
    (hu : url.toList = pre ++ '/' :: name) (hn : '/' ∉ name) :
    objectNameOf net url = Run.pure (String.mk name) := by
  rw [objectNameOf_eq, hu]
  simp [List.getLast?_map, splitGo_getLast name hn pre []]

theorem objectNameOf_no_slash (net : Net) (url : String) (h : '/' ∉ url.toList) :
    objectNameOf net url = Run.pure url := by
  rw [objectNameOf_eq, splitGo_no_slash _ [] h]
  simp

/-! ## The task body -/

theorem pure_bind {α β : Type} (a : α) (k : α → Run β) : Run.bind (Run.pure a) k = k a := by
  simp [Run.bind, Run.pure]

theorem bind_trace {α β : Type} (m : Run α) (k : α → Run β) :
    (Run.bind m k).trace = m.trace ++
      (match m.out with
       | .ret a => (k a).trace
       | .panic _ => []) := by
  unfold Run.bind
  cases m.out <;> simp

theorem withDefer_Close_trace {α : Type} (body : Run α) (r : ReadCloser) :
    (Run.withDefer body r.Close).trace = body.trace ++ [Event.close r] := by
  simp [Run.withDefer, ReadCloser.Close, call]

/-- The part of the task body after `defer reader.Close()`, for the object name `nm`. -/
theorem storeStep_s3Puts (s : S3Client) (nm : String) (r : ReadCloser) (n : Int)
    (o : PutObjectOptions) :
    s3Puts (Run.bind (s.PutObject nm r n o) fun res =>
      match res with
      | .error err => logPrintf ("put object " ++ nm ++ " error: " ++ err)
      | .ok _ => Run.pure ()).trace = [(nm, r, n, o.ContentType)] := by
  rw [bind_trace, s3Puts_append, PutObject_s3Puts]
  cases (s.PutObject nm r n o).out with
  | panic v => simp [s3Puts]
  | ret res => cases res <;> simp [s3Puts, logPrintf, call, Run.pure]

theorem storeStep_closes (s : S3Client) (nm : String) (r : ReadCloser) (n : Int)
    (o : PutObjectOptions) :
    closes (Run.bind (s.PutObject nm r n o) fun res =>
      match res with
      | .error err => logPrintf ("put object " ++ nm ++ " error: " ++ err)
      | .ok _ => Run.pure ()).trace = [] := by
  rw [bind_trace, closes_append, PutObject_closes]
  cases (s.PutObject nm r n o).out with
  | panic v => simp [closes]
  | ret res => cases res <;> simp [closes, logPrintf, call, Run.pure]

/-- The trace of a task whose fetch succeeded: the fetch, the store step for the last piece
of the job, and the deferred `Close`. -/
theorem consumeTask_trace_ok (e : Env) (url : String) (r : ReadCloser) (n : Int)
    (hf : (fetchOriginalImage e.net url e.Cfg.GetCookie.1).out = .ret (.ok (r, n))) :
    ∃ nm : String, objectNameOf e.net url = Run.pure nm ∧
      (consumeTask e url).trace = (fetchOriginalImage e.net url e.Cfg.GetCookie.1).trace ++
        ((Run.bind (e.s3.PutObject nm r n { ContentType := "image/jpeg" }) fun res =>
            match res with
            | .error err => logPrintf ("put object " ++ nm ++ " error: " ++ err)
            | .ok _ => Run.pure ()).trace ++ [Event.close r]) := by
  refine ⟨_, objectNameOf_eq e.net url, ?_⟩
  unfold consumeTask
  rw [bind_trace, hf]
  simp only [objectNameOf_eq, pure_bind, withDefer_Close_trace]

theorem consumeTask_s3Puts_ok (e : Env) (url : String) (r : ReadCloser) (n : Int) (nm : String)
    (hf : (fetchOriginalImage e.net url e.Cfg.GetCookie.1).out = .ret (.ok (r, n)))
    (hn : objectNameOf e.net url = Run.pure nm) :
    s3Puts (consumeTask e url).trace = [(nm, r, n, "image/jpeg")] := by
  obtain ⟨nm1, h1, ht⟩ := consumeTask_trace_ok e url r n hf
  have he : nm1 = nm := by
    have := h1.symm.trans hn
    simpa [Run.pure] using this
  subst he
  rw [ht, s3Puts_append, s3Puts_append, storeStep_s3Puts,
    s3Puts_of_httpDo _ (fetchOriginalImage_events _ _ _)]
  simp [s3Puts]

theorem consumeTask_closes_ok (e : Env) (url : String) (r : ReadCloser) (n : Int)
    (hf : (fetchOriginalImage e.net url e.Cfg.GetCookie.1).out = .ret (.ok (r, n))) :
    closes (consumeTask e url).trace = [r] := by
  obtain ⟨nm1, _, ht⟩ := consumeTask_trace_ok e url r n hf
  rw [ht, closes_append, closes_append, storeStep_closes,
    closes_of_httpDo _ (fetchOriginalImage_events _ _ _)]
  simp [closes]

/-- The trace of a task whose fetch reported an error: the fetch and one log line. -/
theorem consumeTask_fetch_error (e : Env) (url : String) (err : Error)
    (hf : (fetchOriginalImage e.net url e.Cfg.GetCookie.1).out = .ret (.error err)) :
    consumeTask e url =
      { trace := (fetchOriginalImage e.net url e.Cfg.GetCookie.1).trace ++
          [Event.log ("fetch original image " ++ url ++ " error: " ++ err)],
        out := .ret () } := by
  unfold consumeTask Run.bind
  rw [hf]
  simp [logPrintf, call]

/-! ## The admission queue -/

/-- The line the handler logs for a rejected job. -/
theorem enqueueJobs_spec (jobs : List String) :
    ∀ ch : Chan,
      (enqueueJobs ch jobs).1 = { ch with buf := ch.buf ++ jobs.take (ch.cap - ch.buf.length) } ∧
      (enqueueJobs ch jobs).2 = (jobs.drop (ch.cap - ch.buf.length)).map
        fun url => Event.log ("enqueue timeout, url " ++ url) := by
  induction jobs with
  | nil => intro ch; simp [enqueueJobs]
  | cons url rest ih =>
    intro ch
    by_cases hroom : ch.buf.length < ch.cap
    · obtain ⟨k, hk⟩ : ∃ k, ch.cap - ch.buf.length = k + 1 :=
        ⟨ch.cap - ch.buf.length - 1, by omega⟩
      have h1 := ih { ch with buf := ch.buf ++ [url] }
      have hk1 : ch.cap - (ch.buf.length + 1) = k := by omega
      simp only [List.length_append, List.length_singleton, hk1] at h1
      simp [enqueueJobs, Chan.trySend, hroom, hk, h1]
    · have hz : ch.cap - ch.buf.length = 0 := by omega
      have h1 := ih ch
      rw [hz] at h1
      simp [enqueueJobs, Chan.trySend, hroom, hz, h1]

/-! ## The dispatcher loop -/

theorem consumeStep_returned (e : Env) (p : Ready) (d : Dispatcher) (h : d.returned = true) :
    consumeStep e p d = d := by
  simp [consumeStep, h]

theorem consume_returned (e : Env) (picks : List Ready) :
    ∀ d : Dispatcher, d.returned = true → consume e picks d = d := by
  induction picks with
  | nil => intro d _; rfl
  | cons p ps ih =>
    intro d h
    simp only [consume, List.foldl_cons, consumeStep_returned e p d h]
    exact ih d h

theorem consume_cons (e : Env) (p : Ready) (ps : List Ready) (d : Dispatcher) :
    consume e (p :: ps) d = consume e ps (consumeStep e p d) := rfl

/-- Every goroutine a step starts ends with a normal return. -/
theorem consumeStep_spawned (e : Env) (p : Ready) (d : Dispatcher) :
    ∀ g ∈ (consumeStep e p d).spawned, g ∈ d.spawned ∨ g.2.out = .ret () := by
  intro g hg
  unfold consumeStep at hg
  split at hg
  · exact Or.inl hg
  · split at hg
    · split at hg <;> exact Or.inl hg
    · have hd : ∀ url rest, g ∈ (dispatch e d url rest).spawned →
          g ∈ d.spawned ∨ g.2.out = .ret () := by
        intro url rest h
        simp only [dispatch, List.mem_append, List.mem_singleton] at h
        rcases h with h | h
        · exact Or.inl h
        · exact Or.inr (by rw [h]; exact Go_out _)
      split at hg
      · split at hg
        · exact Or.inl hg
        · exact hd _ _ hg
      · exact hd _ _ hg

theorem consume_spawned (e : Env) (picks : List Ready) :
    ∀ d : Dispatcher, ∀ g ∈ (consume e picks d).spawned, g ∈ d.spawned ∨ g.2.out = .ret () := by
  induction picks with
  | nil => intro d g hg; exact Or.inl hg
  | cons p ps ih =>
    intro d g hg
    rw [consume_cons] at hg
    rcases ih _ g hg with h | h
    · exact consumeStep_spawned e p d g h
    · exact Or.inr h

/-- What the loop does next depends on the control part of its state only, not on how the
tasks started so far behave. -/
theorem consumeStep_control (e1 e2 : Env) (p : Ready) (d1 d2 : Dispatcher)
    (h : d1.control = d2.control) :
    (consumeStep e1 p d1).control = (consumeStep e2 p d2).control := by
  obtain ⟨s1, w1, sp1, r1⟩ := d1
  obtain ⟨s2, w2, sp2, r2⟩ := d2
  simp only [Dispatcher.control, Prod.mk.injEq] at h
  obtain ⟨rfl, rfl, hsp, rfl⟩ := h
  obtain ⟨cap, buf⟩ := w1
  cases r1 <;> cases s1 <;> cases buf <;> cases p <;>
    simp [consumeStep, dispatch, Dispatcher.control, hsp]

theorem consume_control (picks : List Ready) :
    ∀ (e1 e2 : Env) (d1 d2 : Dispatcher), d1.control = d2.control →
      (consume e1 picks d1).control = (consume e2 picks d2).control := by
  induction picks with
  | nil => intro _ _ d1 d2 h; exact h
  | cons p ps ih =>
    intro e1 e2 d1 d2 h
    rw [consume_cons, consume_cons]
    exact ih e1 e2 _ _ (consumeStep_control e1 e2 p d1 d2 h)

/-! ## The claims -/

/-- C10: settings store, read after update. `UpdateCookie v` returns `v`; a `GetCookie` after
it returns `v`, also when an earlier update wrote another value `w` and when other reads came
in between; `GetCookie` leaves the configuration as it was. -/
theorem C10_cookie_read_after_update (c : opt.Config) (v w : String) :
    (c.UpdateCookie v).1 = v ∧
    (c.UpdateCookie v).2.GetCookie.1 = v ∧
    ((c.UpdateCookie w).2.UpdateCookie v).2.GetCookie.1 = v ∧
    (c.UpdateCookie v).2.GetCookie.2.GetCookie.1 = v ∧
    c.GetCookie.2 = c :=
  ⟨rfl, rfl, rfl, rfl, rfl⟩

/-- C1: failure isolation. For every task body `fn`, panicking or not, the goroutine started
by `Go fn` ends with a normal return after the events of `fn` and at most a log line; so every
goroutine `consume` starts ends normally, and the jobs the dispatcher takes, its queue and
whether it has returned are the same whatever the tasks do (any other environment `e2`). -/
theorem C1_failure_isolation (fn : Run Unit) (e : Env) (picks : List Ready) (d : Dispatcher) :
    (Go fn).out = Outcome.ret () ∧
    (∃ logged : List Event, (Go fn).trace = fn.trace ++ logged) ∧
    Go { trace := [], out := Outcome.panic (some "index out of range") }
      = { trace := [Event.log "panic: index out of range"], out := Outcome.ret () } ∧
    (∀ g ∈ (consume e picks d).spawned, g ∈ d.spawned ∨ g.2.out = Outcome.ret ()) ∧
    (∀ e2 : Env, (consume e picks d).control = (consume e2 picks d).control) :=
  ⟨Go_out fn, ⟨_, Go_trace fn⟩, by decide, consume_spawned e picks d,
    fun e2 => consume_control picks e e2 d d rfl⟩

/-- C2: bounded non-blocking admission. Offering `N > C` jobs to an empty queue of capacity
`C` with nothing dequeued leaves exactly the first `C` jobs in the queue, in submission order,
and logs a rejection for each of the other `N - C`, in order; after every number `k` of offers
the queue holds at most `C` jobs; the handler's loop over picture ids is this on their URLs. -/
theorem C2_bounded_admission (C : Nat) (jobs : List String) (h : C < jobs.length) :
    (enqueueJobs { cap := C, buf := [] } jobs).1.buf = jobs.take C ∧
    (enqueueJobs { cap := C, buf := [] } jobs).1.buf.length = C ∧
    (enqueueJobs { cap := C, buf := [] } jobs).2
      = (jobs.drop C).map (fun url => Event.log ("enqueue timeout, url " ++ url)) ∧
    (enqueueJobs { cap := C, buf := [] } jobs).2.length = jobs.length - C ∧
    (∀ k : Nat, (enqueueJobs { cap := C, buf := [] } (jobs.take k)).1.buf.length ≤ C) ∧
    (∀ pic_ids : List String, jobs = pic_ids.map jobURL →
      (enqueuePicIds { cap := C, buf := [] } pic_ids).1.buf = jobs.take C) := by
  have hspec := fun js => enqueueJobs_spec js { cap := C, buf := [] }
  simp only [List.length_nil, Nat.sub_zero, List.nil_append] at hspec
  refine ⟨by rw [(hspec jobs).1], ?_, (hspec jobs).2, ?_, ?_, ?_⟩
  · rw [(hspec jobs).1]
    simp only [List.length_take]
    omega
  · rw [(hspec jobs).2]
    simp
  · intro k
    rw [(hspec (jobs.take k)).1]
    simp only [List.length_take]
    omega
  · intro pic_ids hj
    rw [enqueuePicIds, ← hj, (hspec jobs).1]

/-- C2 at capacity 2 and jobs "a", "b", "c": "a" and "b" are admitted, "c" is rejected. -/
theorem C2_bounded_admission_witness :
    2 < ["a", "b", "c"].length ∧
    (enqueueJobs { cap := 2, buf := [] } ["a", "b", "c"]).1.buf = ["a", "b"] ∧
    (enqueueJobs { cap := 2, buf := [] } ["a", "b", "c"]).2
      = [Event.log "enqueue timeout, url c"] :=
  ⟨by decide, (C2_bounded_admission 2 ["a", "b", "c"] (by decide)).1,
    (C2_bounded_admission 2 ["a", "b", "c"] (by decide)).2.2.1⟩

/-- C3: a task whose fetch returns an error logs it and returns; its trace, also under `Go`,
holds no call of `S3Client.PutObject` and no call of the minio client. -/
theorem C3_fetch_error_no_put (e : Env) (url : String) (err : Error)
    (hf : (fetchOriginalImage e.net url e.Cfg.GetCookie.1).out = Outcome.ret (.error err)) :
    (consumeTask e url).out = Outcome.ret () ∧
    Go (consumeTask e url) = consumeTask e url ∧
    s3Puts (consumeTask e url).trace = [] ∧
    writes (consumeTask e url).trace = [] ∧
    (∀ ev ∈ (consumeTask e url).trace, ev.isStore = false) := by
  have ht := consumeTask_fetch_error e url err hf
  have hev : ∀ ev ∈ (consumeTask e url).trace, ev.isStore = false := by
    intro ev hev
    rw [ht] at hev
    rcases List.mem_append.1 hev with h | h
    · obtain ⟨req, rfl⟩ := fetchOriginalImage_events _ _ _ ev h
      rfl
    · rw [List.mem_singleton.1 h]
      rfl
  have hnil : ∀ t : List Event, (∀ ev ∈ t, ev.isStore = false) → s3Puts t = [] ∧ writes t = [] := by
    intro t
    induction t with
    | nil => intro _; exact ⟨rfl, rfl⟩
    | cons ev t ih =>
      intro hall
      have h1 := hall ev (List.mem_cons_self _ _)
      have h2 := ih fun x hx => hall x (List.mem_cons_of_mem _ hx)
      cases ev <;> simp_all [s3Puts, writes, Event.isStore]
  refine ⟨by rw [ht], ?_, (hnil _ hev).1, (hnil _ hev).2, hev⟩
  rw [ht]
  simp [Go, Run.deferRecover, Run.pure]

/-- C3 at a client whose request fails. -/
theorem C3_fetch_error_no_put_witness :
    (fetchOriginalImage (envOf netDown minioOK).net jobURL123
        (envOf netDown minioOK).Cfg.GetCookie.1).out
      = Outcome.ret (.error "make request to http://host/path/123.jpg err: connection refused") ∧
    s3Puts (consumeTask (envOf netDown minioOK) jobURL123).trace = [] ∧
    writes (consumeTask (envOf netDown minioOK) jobURL123).trace = [] :=
  ⟨rfl,
    (C3_fetch_error_no_put (envOf netDown minioOK) jobURL123 _ rfl).2.2.1,
    (C3_fetch_error_no_put (envOf netDown minioOK) jobURL123 _ rfl).2.2.2.1⟩

/-- C6: for a job containing "/" whose fetch succeeds with stream `r` and declared length `n`,
the task calls `S3Client.PutObject` exactly once, with the part of the job after its last "/"
as object name, the stream `r`, the size `n` and the content type "image/jpeg"; the same holds
for the goroutine `Go` runs. -/
theorem C6_store_last_segment (e : Env) (url : String) (r : ReadCloser) (n : Int)
    (hs : '/' ∈ url.toList)
    (hf : (fetchOriginalImage e.net url e.Cfg.GetCookie.1).out = Outcome.ret (.ok (r, n))) :
    ∃ pre name : String, url = pre ++ "/" ++ name ∧ '/' ∉ name.toList ∧
      s3Puts (consumeTask e url).trace = [(name, r, n, "image/jpeg")] ∧
      s3Puts (Go (consumeTask e url)).trace = [(name, r, n, "image/jpeg")] := by
  obtain ⟨pre, name, hu, hn⟩ := exists_last_slash url.toList hs
  have hp := consumeTask_s3Puts_ok e url r n (String.mk name) hf
    (objectNameOf_slash e.net url pre name hu hn)
  refine ⟨String.mk pre, String.mk name, ?_, hn, hp, ?_⟩
  · apply String.ext
    simpa using hu
  · rw [Go_s3Puts, hp]

/-- C6 at the job "http://host/path/123.jpg" with a 9-byte fetch result: one call, with the
name "123.jpg" and the length 9. -/
theorem C6_store_last_segment_witness :
    '/' ∈ jobURL123.toList ∧
    (fetchOriginalImage (envOf (netStatus 200) minioOK).net jobURL123
        (envOf (netStatus 200) minioOK).Cfg.GetCookie.1).out = Outcome.ret (.ok (⟨1⟩, 9)) ∧
    s3Puts (consumeTask (envOf (netStatus 200) minioOK) jobURL123).trace
      = [("123.jpg", ⟨1⟩, 9, "image/jpeg")] ∧
    ∃ pre name : String, jobURL123 = pre ++ "/" ++ name ∧ '/' ∉ name.toList ∧
      s3Puts (consumeTask (envOf (netStatus 200) minioOK) jobURL123).trace
        = [(name, ⟨1⟩, 9, "image/jpeg")] ∧
      s3Puts (Go (consumeTask (envOf (netStatus 200) minioOK) jobURL123)).trace
        = [(name, ⟨1⟩, 9, "image/jpeg")] :=
  ⟨by decide, rfl, by decide,
    C6_store_last_segment (envOf (netStatus 200) minioOK) jobURL123 ⟨1⟩ 9 (by decide) rfl⟩

/-- C9: for a job whose fetch succeeds with stream `r`, the task closes `r` exactly once and
closes nothing else, as its last action, whatever the store does (success, error or panic);
the same holds for the goroutine `Go` runs. -/
theorem C9_stream_closed_once (e : Env) (url : String) (r : ReadCloser) (n : Int)
    (hf : (fetchOriginalImage e.net url e.Cfg.GetCookie.1).out = Outcome.ret (.ok (r, n))) :
    closes (consumeTask e url).trace = [r] ∧
    closes (Go (consumeTask e url)).trace = [r] ∧
    (∃ before : List Event, (consumeTask e url).trace = before ++ [Event.close r]) := by
  have hc := consumeTask_closes_ok e url r n hf
  refine ⟨hc, by rw [Go_closes, hc], ?_⟩
  obtain ⟨nm, _, ht⟩ := consumeTask_trace_ok e url r n hf
  exact ⟨_, by rw [ht, ← List.append_assoc]⟩

/-- C9 at a store whose write panics: the stream is closed once before `Go` logs the panic. -/
theorem C9_stream_closed_once_witness :
    (fetchOriginalImage (envOf (netStatus 200) minioPanic).net jobURL123
        (envOf (netStatus 200) minioPanic).Cfg.GetCookie.1).out = Outcome.ret (.ok (⟨1⟩, 9)) ∧
    (consumeTask (envOf (netStatus 200) minioPanic) jobURL123).out
      = Outcome.panic (some "nil pointer dereference") ∧
    closes (consumeTask (envOf (netStatus 200) minioPanic) jobURL123).trace = [⟨1⟩] ∧
    closes (Go (consumeTask (envOf (netStatus 200) minioPanic) jobURL123)).trace = [⟨1⟩] :=
  ⟨rfl, by decide,
    (C9_stream_closed_once (envOf (netStatus 200) minioPanic) jobURL123 ⟨1⟩ 9 rfl).1,
    (C9_stream_closed_once (envOf (netStatus 200) minioPanic) jobURL123 ⟨1⟩ 9 rfl).2.1⟩

/-- C8: `S3Client.PutObject` checks the configured bucket first. When the check returns an
error or false, `PutObject` returns an error and the trace holds no write; when it returns
true the trace holds exactly one write, with the configured bucket and the given name, stream,
size and options, and `PutObject` returns what that write returns; a write in the trace means
the check returned true, and the check is the first call made. -/
theorem C8_put_checks_bucket (s : S3Client) (name : String) (r : ReadCloser) (n : Int)
    (o : PutObjectOptions) :
    (∀ err : Error, s.Client.BucketExists s.bucket = Outcome.ret (.error err) →
      (s.PutObject name r n o).out = Outcome.ret (.error err) ∧
      writes (s.PutObject name r n o).trace = []) ∧
    (s.Client.BucketExists s.bucket = Outcome.ret (.ok false) →
      (s.PutObject name r n o).out
        = Outcome.ret (.error ("bucket " ++ s.bucket ++ " not exists")) ∧
      writes (s.PutObject name r n o).trace = []) ∧
    (s.Client.BucketExists s.bucket = Outcome.ret (.ok true) →
      (s.PutObject name r n o).out = s.Client.PutObject s.bucket name r n o ∧
      writes (s.PutObject name r n o).trace = [(s.bucket, name, r, n, o)]) ∧
    (writes (s.PutObject name r n o).trace ≠ [] →
      s.Client.BucketExists s.bucket = Outcome.ret (.ok true)) ∧
    (s.PutObject name r n o).trace.take 2
      = [Event.s3Put name r n o, Event.bucketExists s.bucket] := by
  unfold S3Client.PutObject S3Client.BucketExists Run.bind call
  cases hb : s.Client.BucketExists s.bucket with
  | panic v => simp [writes]
  | ret b =>
    cases b with
    | error err => simp [writes, Run.pure]
    | ok ex => cases ex <;> simp [writes, Run.pure]

/-- C8 at three stores: the bucket check fails, the bucket is absent, the bucket exists. -/
theorem C8_put_checks_bucket_witness :
    writes (S3Client.PutObject
      { timeout := 20, bucket := "images",
        Client := minioOf (.ret (.error "timeout")) (.ret (.error "unreachable")) }
      "123.jpg" ⟨1⟩ 9 { ContentType := "image/jpeg" }).trace = [] ∧
    (S3Client.PutObject
      { timeout := 20, bucket := "images",
        Client := minioOf (.ret (.ok false)) (.ret (.error "unreachable")) }
      "123.jpg" ⟨1⟩ 9 { ContentType := "image/jpeg" }).out
      = Outcome.ret (.error "bucket images not exists") ∧
    writes (S3Client.PutObject { timeout := 20, bucket := "images", Client := minioOK }
      "123.jpg" ⟨1⟩ 9 { ContentType := "image/jpeg" }).trace
      = [("images", "123.jpg", ⟨1⟩, 9, { ContentType := "image/jpeg" })] :=
  ⟨((C8_put_checks_bucket _ _ _ _ _).1 "timeout" rfl).2,
   ((C8_put_checks_bucket _ _ _ _ _).2.1 rfl).1,
   ((C8_put_checks_bucket _ _ _ _ _).2.2.1 rfl).2⟩

/-- C4, amended: with the stop channel closed and `consume` still running, the loop returns at
the first iteration whose `select` takes the stop case, and whatever is picked afterwards
(`rest`) nothing more is dequeued or dispatched; before that, each of the `k` iterations whose
`select` took the job case dequeued and dispatched one job, oldest first. With `k = 0` no job
that was queued at the signal is taken. -/
theorem C4_stop_ends_loop_at_stop_pick (e : Env) (rest : List Ready) (k : Nat) :
    ∀ d : Dispatcher, d.stopClosed = true → d.returned = false → k ≤ d.workers.buf.length →
      (consume e (List.replicate k Ready.job ++ Ready.stop :: rest) d).returned = true ∧
      (consume e (List.replicate k Ready.job ++ Ready.stop :: rest) d).workers.buf
        = d.workers.buf.drop k ∧
      (consume e (List.replicate k Ready.job ++ Ready.stop :: rest) d).spawned
        = d.spawned ++ (d.workers.buf.take k).map fun url => (url, Go (consumeTask e url)) := by
  induction k with
  | zero =>
    intro d hs hr _
    have hstep : consumeStep e Ready.stop d = { d with returned := true } := by
      unfold consumeStep
      cases hb : d.workers.buf <;> simp [hs, hr]
    simp only [List.replicate_zero, List.nil_append, consume_cons, hstep]
    rw [consume_returned e rest _ rfl]
    simp
  | succ k ih =>
    intro d hs hr hk
    cases hb : d.workers.buf with
    | nil => simp [hb] at hk
    | cons url tl =>
      have hstep : consumeStep e Ready.job d = dispatch e d url tl := by
        unfold consumeStep
        simp [hs, hr, hb]
      have hk1 : k ≤ (dispatch e d url tl).workers.buf.length := by
        simp only [hb, List.length_cons] at hk
        simp only [dispatch]
        omega
      have h1 := ih (dispatch e d url tl) hs hr hk1
      simp only [List.replicate_succ, List.cons_append, consume_cons, hstep]
      refine ⟨h1.1, ?_, ?_⟩
      · rw [h1.2.1]; simp [dispatch]
      · rw [h1.2.2]; simp [dispatch]

/-- C4 amended, at the dispatcher holding the job "a" when the signal comes: if the stop case
is taken first, "a" stays in the queue and no task is started, whatever is picked later. -/
theorem C4_stop_ends_loop_at_stop_pick_witness :
    signalled.stopClosed = true ∧ signalled.returned = false ∧
    0 ≤ signalled.workers.buf.length ∧
    (consume (envOf (netStatus 200) minioOK) [Ready.stop, Ready.job, Ready.job]
      signalled).returned = true ∧
    (consume (envOf (netStatus 200) minioOK) [Ready.stop, Ready.job, Ready.job]
      signalled).workers.buf = ["a"] ∧
    (consume (envOf (netStatus 200) minioOK) [Ready.stop, Ready.job, Ready.job]
      signalled).spawned = [] :=
  ⟨rfl, rfl, Nat.zero_le _,
    C4_stop_ends_loop_at_stop_pick (envOf (netStatus 200) minioOK) [Ready.job, Ready.job] 0
      signalled rfl rfl (Nat.zero_le _)⟩

/-- C4 as stated fails: the stop channel is closed and the job "a" is still queued; both cases
of the `select` are ready, and when the job case is taken "a" is dequeued and dispatched as a
task, the loop still running. -/
theorem C4_job_taken_after_signal :
    signalled.stopClosed = true ∧ signalled.returned = false ∧
    signalled.workers.buf = ["a"] ∧
    (consumeStep (envOf (netStatus 200) minioOK) Ready.job signalled).workers.buf = [] ∧
    (consumeStep (envOf (netStatus 200) minioOK) Ready.job signalled).spawned.map Prod.fst
      = ["a"] ∧
    (consumeStep (envOf (netStatus 200) minioOK) Ready.job signalled).returned = false := by
  decide

/-- C7 as stated fails: the request completes with status 404, outside 200-299, and
`fetchOriginalImage` returns the body and the length 9 with no error; the task then calls
`S3Client.PutObject` with that body and the write is made. -/
theorem C7_status_404_is_stored :
    ¬ (200 ≤ 404 ∧ 404 ≤ 299) ∧
    (MakeRequest (netStatus 404) jobURL123 (imageHeaders jobURL123 "SUB=1")).out
      = Outcome.ret (.ok { StatusCode := 404, Body := ⟨1⟩, ContentLength := 9 }) ∧
    (fetchOriginalImage (netStatus 404) jobURL123 "SUB=1").out = Outcome.ret (.ok (⟨1⟩, 9)) ∧
    s3Puts (consumeTask (envOf (netStatus 404) minioOK) jobURL123).trace
      = [("123.jpg", ⟨1⟩, 9, "image/jpeg")] ∧
    writes (consumeTask (envOf (netStatus 404) minioOK) jobURL123).trace
      = [("images", "123.jpg", ⟨1⟩, 9, { ContentType := "image/jpeg" })] :=
  ⟨by decide, rfl, rfl, by decide, by decide⟩

/-- C7, amended: `fetchOriginalImage` never reads the status. When `MakeRequest` returns a
response `resp`, of any status, `fetchOriginalImage` returns its body and declared length with
no error and the task calls `S3Client.PutObject` once with them; `fetchOriginalImage` reports
an error exactly when `MakeRequest` does, and then the task calls the store not at all. -/
theorem C7_response_of_any_status_is_stored (e : Env) (url : String) (resp : Response)
    (h : (MakeRequest e.net url (imageHeaders url e.Cfg.GetCookie.1)).out
      = Outcome.ret (.ok resp)) :
    (fetchOriginalImage e.net url e.Cfg.GetCookie.1).out
      = Outcome.ret (.ok (resp.Body, resp.ContentLength)) ∧
    (∃ name : String, s3Puts (consumeTask e url).trace
      = [(name, resp.Body, resp.ContentLength, "image/jpeg")]) ∧
    (∀ (net : Net) (u cookie : String),
      (∃ err, (fetchOriginalImage net u cookie).out = Outcome.ret (.error err)) ↔
      (∃ err, (MakeRequest net u (imageHeaders u cookie)).out = Outcome.ret (.error err))) := by
  have hf : (fetchOriginalImage e.net url e.Cfg.GetCookie.1).out
      = Outcome.ret (.ok (resp.Body, resp.ContentLength)) := by
    unfold fetchOriginalImage Run.bind
    rw [h]
    rfl
  refine ⟨hf, ?_, ?_⟩
  · obtain ⟨nm, hn, _⟩ := consumeTask_trace_ok e url _ _ hf
    exact ⟨nm, consumeTask_s3Puts_ok e url _ _ nm hf hn⟩
  · intro net u cookie
    unfold fetchOriginalImage Run.bind
    cases hm : (MakeRequest net u (imageHeaders u cookie)).out with
    | panic v => simp
    | ret res => cases res <;> simp [Run.pure]

/-- C7 amended, at the response with status 404. -/
theorem C7_response_of_any_status_is_stored_witness :
    (MakeRequest (envOf (netStatus 404) minioOK).net jobURL123
        (imageHeaders jobURL123 (envOf (netStatus 404) minioOK).Cfg.GetCookie.1)).out
      = Outcome.ret (.ok { StatusCode := 404, Body := ⟨1⟩, ContentLength := 9 }) ∧
    (fetchOriginalImage (envOf (netStatus 404) minioOK).net jobURL123
        (envOf (netStatus 404) minioOK).Cfg.GetCookie.1).out = Outcome.ret (.ok (⟨1⟩, 9)) :=
  ⟨rfl, (C7_response_of_any_status_is_stored (envOf (netStatus 404) minioOK) jobURL123
    { StatusCode := 404, Body := ⟨1⟩, ContentLength := 9 } rfl).1⟩

end OriginalImage
